import Mathlib

/-!
# Verification of the ShiftCipher repository

Shallow embedding of the CodingPortfolio shift-cipher programs:

* `src/unnamed/part_000` — the encipher program (namespace `ShiftEncipher`);
* `src/ShiftCipher/src/ShiftDecipher.cpp` — the decipher program; the file
  holds two variants separated by a document marker: the first (lines 1-828,
  deque/bitset based) is modelled in namespace `ShiftDecipher`, the second
  (lines 829-1623) repeats the structure of `part_000` with the decipher
  table orientation and is covered by the same table/parser definitions.

Machine integers are modelled as unbounded `Int`; the program only ever
applies `%` to a non-negative left operand and the positive constants
26/10/32, where C++ `%` agrees with `Int.emod`.  `std::map<char,char>` is
modelled as an association list with first-match lookup: the programs build
each dictionary once from an empty map and, as proved below, never insert a
duplicate key, so first-match lookup coincides with `std::map` assignment
semantics.
-/

/-! ## Character-class alphabets (constants of both source files) -/
/-- Constant `ORIG_UPPER` of `part_000` (identical to `ORIG_UPPERCASE` of
`ShiftDecipher.cpp`): the uppercase alphabet in ASCII order. -/
def ORIG_UPPER : List Char :=
  ['A','B','C','D','E','F','G','H','I','J',
   'K','L','M','N','O','P','Q','R','S','T',
   'U','V','W','X','Y','Z']

/-- Constant `ORIG_LOWER` of `part_000` (= `ORIG_LOWERCASE` of `ShiftDecipher.cpp`). -/
def ORIG_LOWER : List Char :=
  ['a','b','c','d','e','f','g','h','i','j',
   'k','l','m','n','o','p','q','r','s','t',
   'u','v','w','x','y','z']

/-- Constant `ORIG_NUMBERS` of `part_000` (= `ORIG_DIGITS` of `ShiftDecipher.cpp`). -/
def ORIG_NUMBERS : List Char :=
  ['0','1','2','3','4','5','6','7','8','9']

/-- Constant `ORIG_PUNCTS` of `part_000` (= `ORIG_PUNCTUATION_SYMBOLS` of
`ShiftDecipher.cpp`): the 32 punctuation characters in ASCII order, i.e.
codes 33-47, 58-64, 91-96 and 123-126.  They are written here through
`Char.ofNat` so that the file contains no quote/backslash/brace character
literals; the list is exactly
exclam quote hash dollar percent ampersand apostrophe parens star plus comma
minus dot slash colon semicolon less equal greater question at bracket
backslash bracket caret underscore backtick braces bar tilde. -/
def ORIG_PUNCTS : List Char :=
  ([33, 34, 35, 36, 37, 38,
    39, 40, 41, 42, 43, 44,
    45, 46, 47, 58, 59, 60,
    61, 62, 63, 64, 91, 92,
    93, 94, 95, 96, 123, 124,
    125, 126] : List Nat).map Char.ofNat

/-- Alias used by the decipher source. -/
def ORIG_UPPERCASE : List Char := ORIG_UPPER

/-- Alias used by the decipher source. -/
def ORIG_LOWERCASE : List Char := ORIG_LOWER

/-- Alias used by the decipher source. -/
def ORIG_DIGITS : List Char := ORIG_NUMBERS

/-- Alias used by the decipher source. -/
def ORIG_PUNCTUATION_SYMBOLS : List Char := ORIG_PUNCTS

/-! ## Shift reduction (`calcReducedShift` / `calculateEffectiveShift`)

Both sources define the same function body:

```cpp
int reduced_shift = 0;
if( original_shift < 0 ) {
    reduced_shift = original_shift;
    while( reduced_shift < 0 ) { reduced_shift += mod_size; }
}
else if( original_shift >= 0 ) { reduced_shift = original_shift % mod_size; }
return reduced_shift;
```
-/
/-- The `while( reduced_shift < 0 ) reduced_shift += mod_size;` loop. -/
def shiftUp (s m : Int) : Int :=
  if h : s < 0 ∧ 0 < m then shiftUp (s + m) m else s
termination_by (if s < 0 then s.natAbs else 0)
decreasing_by
  have h1 : s < 0 := h.1
  rw [if_pos h1]
  split <;> omega

/-- Function `calcReducedShift` of `ShiftDecipher.cpp` (default `mod_size = 26` is
always made explicit at the call sites of this model). -/
def calcReducedShift (original_shift mod_size : Int) : Int :=
  if original_shift < 0 then shiftUp original_shift mod_size
  else original_shift % mod_size

/-- Function `calculateEffectiveShift` of `part_000`: textually the same function. -/
def calculateEffectiveShift (original_shift mod_size : Int) : Int :=
  if original_shift < 0 then shiftUp original_shift mod_size
  else original_shift % mod_size

/-! ## Circular shift and dictionary entries

`std::valarray<char>::cshift(n)` produces the array whose element `i` is
the original element `(i + n) mod size`; both programs only call it with
the reduced shift, which is a non-negative `int` below the alphabet size,
where it agrees with `List.rotate` on the `toNat` of the shift. -/
/-- Model of `valarray::cshift` at the (non-negative) shifts the programs
use. -/
def cshift (l : List Char) (k : Int) : List Char := l.rotate k.toNat

/-- One enciphering class segment: the loop
`dict[ORIG[n]] = shifted[n]` over the class alphabet (`part_000`,
`generateCipherDict`). -/
def classEntriesE (alpha : List Char) (r : Int) : List (Char × Char) :=
  alpha.zip (cshift alpha r)

/-- One deciphering class segment: the loop
`dict[shifted[n]] = ORIG[n]` (`ShiftDecipher.cpp`, `generateCipherDict`). -/
def classEntriesD (alpha : List Char) (r : Int) : List (Char × Char) :=
  (cshift alpha r).zip alpha

/-! ## The full dictionaries

`generateCipherDict` of `part_000` fills one `std::map` with the four class
loops in the order uppercase, lowercase, numbers, punctuation; the decipher
`generateCipherDict` does the same with key and value swapped per entry.
The shift used for the letter classes is the modulo-26 reduction of the raw
shift; the digit and punctuation shifts are the modulo-10 / modulo-32
reductions of the same raw shift when the class is enabled, and keep their
initialised value 0 when not. -/
/-- The enciphering dictionary contents as a function of the per-class
reduced shifts (`part_000`, `generateCipherDict`, lines 483-505). -/
def cipherDictEntries (eff numbers_shift puncts_shift : Int) :
    List (Char × Char) :=
  classEntriesE ORIG_UPPER eff ++ classEntriesE ORIG_LOWER eff ++
    classEntriesE ORIG_NUMBERS numbers_shift ++
    classEntriesE ORIG_PUNCTS puncts_shift

/-- The deciphering dictionary contents as a function of the per-class
reduced shifts (`ShiftDecipher.cpp`, `generateCipherDict`, lines 661-685). -/
def decipherDictEntries (reduced digits_shift puncts_shift : Int) :
    List (Char × Char) :=
  classEntriesD ORIG_UPPERCASE reduced ++ classEntriesD ORIG_LOWERCASE reduced ++
    classEntriesD ORIG_DIGITS digits_shift ++
    classEntriesD ORIG_PUNCTUATION_SYMBOLS puncts_shift

/-- The per-byte transform of `encipherFileText`/`decipherFileText`:
`if dict.contains(c) then dict[c] else c`. -/
def transformChar (dict : List (Char × Char)) (c : Char) : Char :=
  match dict.lookup c with
  | some y => y
  | none => c

/-- One line of the stream loop: each byte is transformed in order. -/
def transformLine (dict : List (Char × Char)) (line : List Char) : List Char :=
  line.map (transformChar dict)

/-! ## Errors, program codes and `std::stoi`

Exceptions are modelled as an error sum; mutation through the
`CipherOptions*`/`DecipherCtrlOpts*` pointer is modelled by returning the
updated record alongside the outcome, so the state at the moment an
exception is thrown stays observable, as it is in the C++ caller. -/
/-- The exceptions of the programs:
`invalidArgument` and `invalidSingleChar` are the two
`std::invalid_argument` throws of `parseCommandLine` (carrying the
offending token, resp. token and character), `stoiInvalidArgument` is
`std::invalid_argument` from `std::stoi`, `outOfRange` is
`std::out_of_range` from `std::vector::at`, and `frontEmpty` marks the
undefined behaviour of `std::deque::front`/`pop_front` on an empty deque
in the first decipher variant. -/
inductive CipherErr where
  | invalidArgument (tok : String)
  | invalidSingleChar (tok : String) (c : Char)
  | stoiInvalidArgument (tok : String)
  | outOfRange
  | frontEmpty
  deriving DecidableEq

/-- Enumeration `DECIPHER_PROG_CODES` of `ShiftDecipher.cpp`. -/
inductive DECIPHER_PROG_CODES where
  | CMDLN_USER_ERROR
  | CMDLN_OK
  | CMDLN_HELP_REQ
  | CMDLN_USAGE_REQ
  deriving DecidableEq

/-- Leading decimal-digit run of `std::stoi` (stops at the first
non-digit). -/
def stoiDigits : List Char → Nat → Nat
  | [], acc => acc
  | c :: cs, acc =>
    if c.isDigit then stoiDigits cs (acc * 10 + (c.toNat - 48)) else acc

/-- Model of `std::stoi(str, nullptr, 10)`: an optional sign followed by at
least one decimal digit; further characters are ignored.  Leading
whitespace skipping is omitted (no caller in this development passes
whitespace), and the `int` range check is omitted because integers are
unbounded here. -/
def stoi (str : String) : Except CipherErr Int :=
  let rest : List Char :=
    match str.data with
    | '-' :: t => t
    | '+' :: t => t
    | t => t
  let sign : Int :=
    match str.data with
    | '-' :: _ => -1
    | _ => 1
  match rest with
  | [] => .error (.stoiInvalidArgument str)
  | c :: _ =>
    if c.isDigit then .ok (sign * (stoiDigits rest 0 : Int))
    else .error (.stoiInvalidArgument str)

/-- The test `curropt.find_last_of(45) > 0` of both sources (45 is the
dash): true when the token has a dash past position 0, or no dash at all
(`npos > 0`); false exactly when the only dash is the leading one. -/
def lastDashGtZero (cs : List Char) : Bool :=
  ((cs.drop 1).contains (Char.ofNat 45)) || (!(cs.contains (Char.ofNat 45)))

namespace ShiftEncipher

/-- Record `CipherOptions` of `part_000`.  `help_printed` is not a C++
field: it records the observable `printHelp` call of the parser.
`prog_name_stripped` is stored unstripped: `fsys::path(...).filename()` is
an external filesystem call with no algorithmic content. -/
structure CipherOptions where
  program_name : String := ""
  prog_name_stripped : String := ""
  infilename : String := ""
  outfilename : String := ""
  use_default_oname : Bool := true
  shift_amount : Int := 5
  effective_shift : Int := 5
  numbers_shift : Int := 0
  puncts_shift : Int := 0
  enc_numbers : Bool := false
  enc_puncts : Bool := false
  cipher_dict : List (Char × Char) := []
  nbytes_file : Nat := 0
  display_log_info : Bool := false
  help_printed : Bool := false
  deriving DecidableEq

/-- The `for(size_t n = 1; n < curropt.size(); ++n)` loop over a combined
single-character token (`part_000`, `parseCommandLine` lines 400-438): the
set of valid flags is `{a, l, n, p, h}`; an unrecognized character resets
`display_log_info`, `enc_numbers` and `enc_puncts` and throws
`std::invalid_argument`. -/
def scanSingles (tok : String) :
    List Char → CipherOptions → Int → CipherOptions × Except CipherErr Int
  | [], o, res => (o, .ok res)
  | c :: cs, o, res =>
    if c = 'a' then
      scanSingles tok cs { o with enc_numbers := true, enc_puncts := true } res
    else if c = 'n' then scanSingles tok cs { o with enc_numbers := true } res
    else if c = 'p' then scanSingles tok cs { o with enc_puncts := true } res
    else if c = 'l' then
      scanSingles tok cs { o with display_log_info := true } res
    else if c = 'h' then scanSingles tok cs { o with help_printed := true } 1
    else
      ({ o with
          display_log_info := false,
          enc_numbers := false,
          enc_puncts := false },
        .error (.invalidSingleChar tok c))

/-- The option-evaluation `while` loop of `part_000`'s `parseCommandLine`
(lines 331-451), one list element per remaining token.  A value-taking
option reads `usr_cmdln.at(opt_number + 1)`, which throws
`std::out_of_range` when no token follows. -/
def parseLoop : List String → CipherOptions → CipherOptions × Except CipherErr Int
  | [], o => (o, .ok 0)
  | t :: rest, o =>
    if t = "-i" ∨ t = "--ifile" then
      match rest with
      | [] => (o, .error .outOfRange)
      | v :: rest2 => parseLoop rest2 { o with infilename := v }
    else if t = "-o" ∨ t = "--ofile" then
      match rest with
      | [] => (o, .error .outOfRange)
      | v :: rest2 =>
        parseLoop rest2 { o with outfilename := v, use_default_oname := false }
    else if t = "-s" ∨ t = "--shift-amount" then
      match rest with
      | [] => (o, .error .outOfRange)
      | v :: rest2 =>
        match stoi v with
        | .ok z => parseLoop rest2 { o with shift_amount := z }
        | .error e => (o, .error e)
    else if t = "--shift-nums" then parseLoop rest { o with enc_numbers := true }
    else if t = "--shift-puncts" then parseLoop rest { o with enc_puncts := true }
    else if t = "--shift-all" then
      parseLoop rest { o with enc_numbers := true, enc_puncts := true }
    else if t = "--help" then ({ o with help_printed := true }, .ok 1)
    else if t = "--show-log" then
      parseLoop rest { o with display_log_info := true }
    else
      if lastDashGtZero t.data then (o, .error (.invalidArgument t))
      else
        match scanSingles t t.data.tail o 0 with
        | (o2, .error e) => (o2, .error e)
        | (o2, .ok r) => if r = 1 then (o2, .ok 1) else parseLoop rest o2

/-- Function `parseCommandLine` of `part_000`: consumes the program name, prints
usage on a bare invocation (result 1), otherwise runs the option loop.
Result 0 means "continue", 1 means "usage/help shown". -/
def parseCommandLine (usr_cmdln : List String) :
    CipherOptions × Except CipherErr Int :=
  match usr_cmdln with
  | [] => ({}, .error .outOfRange)
  | prog :: rest =>
    let o : CipherOptions := { program_name := prog, prog_name_stripped := prog }
    match rest with
    | [] => (o, .ok 1)
    | _ => parseLoop rest o

/-- Function `generateCipherDict` of `part_000` (lines 467-507): the letter shift is
always reduced mod 26; digit/punctuation shifts are reduced mod 10/32 only
when the class is enabled and otherwise keep their current value (0 at the
only call site); then all four class loops fill the dictionary (which is
empty at the only call site). -/
def generateCipherDict (o : CipherOptions) : CipherOptions :=
  let eff := calculateEffectiveShift o.shift_amount 26
  let nsh :=
    if o.enc_numbers then calculateEffectiveShift o.shift_amount 10
    else o.numbers_shift
  let psh :=
    if o.enc_puncts then calculateEffectiveShift o.shift_amount 32
    else o.puncts_shift
  { o with
      effective_shift := eff,
      numbers_shift := nsh,
      puncts_shift := psh,
      cipher_dict := cipherDictEntries eff nsh psh }

/-- The stream loop of `encipherFileText` (lines 554-571): the input is the
list of lines (terminators already stripped by `getline` and re-appended on
output); every byte is mapped through the dictionary or passed through, and
every byte is counted. -/
def encipherFileText (o : CipherOptions) (lines : List (List Char)) :
    CipherOptions × List (List Char) :=
  ({ o with nbytes_file := o.nbytes_file + (lines.map List.length).sum },
    lines.map fun line => transformLine o.cipher_dict line)

/-- Function `main` of `part_000`: the input file is `none` when it does not exist
(the `filesystem_error` path).  Returns the exit code and the written
output lines (`none` when no file was processed). -/
def main (argv : List String) (input : Option (List (List Char))) :
    Nat × Option (List (List Char)) :=
  match parseCommandLine argv with
  | (_, .error _) => (1, none)
  | (o, .ok r) =>
    if r = 1 then (0, none)
    else if r = 0 then
      match input with
      | none => (1, none)
      | some lines =>
        let o2 := generateCipherDict o
        (0, some (encipherFileText o2 lines).2)
    else (0, none)

end ShiftEncipher

namespace ShiftDecipher

/-- Record `DecipherCtrlOpts` of `ShiftDecipher.cpp` (first variant,
lines 101-143).  The `std::bitset<8>` is modelled by one Bool per used
bit.  Note the source initialiser `0b01000000` sets bit 6 (an UNUSED
flag), not bit 1, so `flag1` ("default output name") starts `false`
despite the comment in the source; `flag6` keeps the actually
initialised bit. -/
structure DecipherCtrlOpts where
  program_name : String := ""
  prog_name_stripped : String := ""
  infilename : String := ""
  outfilename : String := ""
  orig_shift_len : Int := 5
  reduced_shift_len : Int := 5
  digits_shift_len : Int := 0
  puncts_shift_len : Int := 0
  cipher_dict : List (Char × Char) := []
  nbytes_file : Nat := 0
  flag0 : Bool := false
  flag1 : Bool := false
  flag2 : Bool := false
  flag3 : Bool := false
  flag6 : Bool := true
  flag7 : Bool := false
  deriving DecidableEq

/-- The character scan of `parseSingleCharOptions` (lines 453-489): the
`while` loop runs over every character after the leading dash even after
an error or a help request; the `default` case clears flags 2, 3, 7 and 0
and records `CMDLN_USER_ERROR`, while a later recognised character keeps
scanning and a later `h` overwrites the result with `CMDLN_HELP_REQ`. -/
def scanChars :
    List Char → DecipherCtrlOpts → DECIPHER_PROG_CODES →
      DecipherCtrlOpts × DECIPHER_PROG_CODES
  | [], o, r => (o, r)
  | c :: cs, o, r =>
    if c = 'a' then scanChars cs { o with flag2 := true, flag3 := true } r
    else if c = 'n' then scanChars cs { o with flag2 := true } r
    else if c = 'p' then scanChars cs { o with flag3 := true } r
    else if c = 'l' then scanChars cs { o with flag7 := true } r
    else if c = 'h' then scanChars cs { o with flag0 := true } .CMDLN_HELP_REQ
    else
      scanChars cs
        { o with
            flag2 := false,
            flag3 := false,
            flag7 := false,
            flag0 := false }
        .CMDLN_USER_ERROR

/-- Function `parseSingleCharOptions` of `ShiftDecipher.cpp` (first variant, lines
442-492): the dash-position test rejects the token outright; otherwise
every character after the leading dash is scanned. -/
def parseSingleCharOptions (cmdlnSingles : String) (o : DecipherCtrlOpts) :
    DecipherCtrlOpts × DECIPHER_PROG_CODES :=
  if lastDashGtZero cmdlnSingles.data then (o, .CMDLN_USER_ERROR)
  else scanChars cmdlnSingles.data.tail o .CMDLN_OK

/-- The deque-driven option loop of the first variant's `parseCommandLine`
(lines 539-626).  `front()` on an empty deque after popping a value-taking
option is undefined behaviour in C++ and is marked by `frontEmpty`. -/
def parseLoop :
    List String → DecipherCtrlOpts →
      DecipherCtrlOpts × Except CipherErr DECIPHER_PROG_CODES
  | [], o => (o, .ok .CMDLN_OK)
  | t :: rest, o =>
    if t = "-i" ∨ t = "--ifile" then
      match rest with
      | [] => (o, .error .frontEmpty)
      | v :: rest2 => parseLoop rest2 { o with infilename := v }
    else if t = "-o" ∨ t = "--ofile" then
      match rest with
      | [] => (o, .error .frontEmpty)
      | v :: rest2 => parseLoop rest2 { o with outfilename := v, flag1 := false }
    else if t = "-s" ∨ t = "--shift-amount" then
      match rest with
      | [] => (o, .error .frontEmpty)
      | v :: rest2 =>
        match stoi v with
        | .ok z => parseLoop rest2 { o with orig_shift_len := z }
        | .error e => (o, .error e)
    else if t = "--shift-numbers" then parseLoop rest { o with flag2 := true }
    else if t = "--shift-puncts" then parseLoop rest { o with flag3 := true }
    else if t = "--shift-all" then
      parseLoop rest { o with flag2 := true, flag3 := true }
    else if t = "--help" then ({ o with flag0 := true }, .ok .CMDLN_HELP_REQ)
    else if t = "--show-log" then parseLoop rest { o with flag7 := true }
    else
      match parseSingleCharOptions t o with
      | (o2, .CMDLN_USER_ERROR) => (o2, .error (.invalidArgument t))
      | (o2, .CMDLN_HELP_REQ) => (o2, .ok .CMDLN_HELP_REQ)
      | (o2, .CMDLN_USAGE_REQ) => (o2, .ok .CMDLN_USAGE_REQ)
      | (o2, .CMDLN_OK) => parseLoop rest o2

/-- Function `parseCommandLine` of the first decipher variant (lines 515-629). -/
def parseCommandLine (usr_cmdln : List String) :
    DecipherCtrlOpts × Except CipherErr DECIPHER_PROG_CODES :=
  match usr_cmdln with
  | [] => ({}, .error .frontEmpty)
  | prog :: rest =>
    let o : DecipherCtrlOpts :=
      { program_name := prog, prog_name_stripped := prog }
    match rest with
    | [] => (o, .ok .CMDLN_USAGE_REQ)
    | _ => parseLoop rest o

/-- Function `generateCipherDict` of `ShiftDecipher.cpp` (lines 645-685): letter
shift reduced mod 26; digit/punctuation shifts reduced mod 10/32 only when
flags 2/3 are set, keeping their current value (0 at the only call site)
otherwise; the dictionary (empty at the only call site) is filled with the
four reversed class loops. -/
def generateCipherDict (o : DecipherCtrlOpts) : DecipherCtrlOpts :=
  let red := calcReducedShift o.orig_shift_len 26
  let dsh :=
    if o.flag2 then calcReducedShift o.orig_shift_len 10
    else o.digits_shift_len
  let psh :=
    if o.flag3 then calcReducedShift o.orig_shift_len 32
    else o.puncts_shift_len
  { o with
      reduced_shift_len := red,
      digits_shift_len := dsh,
      puncts_shift_len := psh,
      cipher_dict := decipherDictEntries red dsh psh }

/-- The stream loop of `decipherFileText` (lines 743-760), with the
default-output-name append of lines 723-727. -/
def decipherFileText (o : DecipherCtrlOpts) (lines : List (List Char)) :
    DecipherCtrlOpts × List (List Char) :=
  let o :=
    if o.flag1 then { o with outfilename := o.infilename ++ ".dec" } else o
  ({ o with nbytes_file := o.nbytes_file + (lines.map List.length).sum },
    lines.map fun line => transformLine o.cipher_dict line)

/-- Function `main` of the first decipher variant (lines 218-284): help and usage
exit 0 without processing; an ok `CMDLN_USER_ERROR` would exit 1 (the
source marks it unreachable); exceptions exit 1. -/
def main (argv : List String) (input : Option (List (List Char))) :
    Nat × Option (List (List Char)) :=
  match parseCommandLine argv with
  | (_, .error _) => (1, none)
  | (o, .ok code) =>
    match code with
    | .CMDLN_HELP_REQ => (0, none)
    | .CMDLN_USAGE_REQ => (0, none)
    | .CMDLN_USER_ERROR => (1, none)
    | .CMDLN_OK =>
      match input with
      | none => (1, none)
      | some lines =>
        let o2 := generateCipherDict o
        (0, some (decipherFileText o2 lines).2)

end ShiftDecipher

/-- The union of the enabled classes' alphabets for a given flag pair
(upper and lower case are always enabled; digits and punctuation follow
their flags). -/
def enabledAlphabet (n p : Bool) : List Char :=
  ORIG_UPPER ++ ORIG_LOWER ++ (if n then ORIG_NUMBERS else []) ++
    (if p then ORIG_PUNCTS else [])

/-! ## Lemmas and claim theorems -/

theorem calculateEffectiveShift_eq (s m : Int) :
    calculateEffectiveShift s m = calcReducedShift s m := rfl

theorem shiftUp_emod (m : Int) (hm : 0 < m) :
    ∀ (k : Nat) (s : Int), s.natAbs ≤ k →
      shiftUp s m = if s < 0 then s % m else s := by
  intro k
  induction k with
  | zero =>
    intro s hs
    have h0 : s = 0 := by omega
    subst h0
    rw [shiftUp.eq_def]
    simp
  | succ k ih =>
    intro s hs
    by_cases hneg : s < 0
    · rw [shiftUp.eq_def, dif_pos ⟨hneg, hm⟩]
      by_cases hsm : s + m < 0
      · have : (s + m).natAbs ≤ k := by omega
        rw [ih (s + m) this, if_pos hsm, Int.add_emod_self]
        simp [hneg]
      · rw [shiftUp.eq_def, dif_neg (by omega)]
        have h1 : (0 : Int) ≤ s + m := by omega
        have h2 : s + m < m := by omega
        have : s % m = s + m := by
          rw [← Int.add_emod_self, Int.emod_eq_of_lt h1 h2]
        simp [hneg, this]
    · rw [shiftUp.eq_def, dif_neg (by omega)]
      simp [hneg]

theorem calcReducedShift_emod (s m : Int) (hm : 0 < m) :
    calcReducedShift s m = s % m := by
  unfold calcReducedShift
  by_cases hneg : s < 0
  · rw [if_pos hneg, shiftUp_emod m hm s.natAbs s le_rfl, if_pos hneg]
  · rw [if_neg hneg]

theorem calcReducedShift_nonneg (s m : Int) (hm : 0 < m) :
    0 ≤ calcReducedShift s m := by
  rw [calcReducedShift_emod s m hm]
  exact Int.emod_nonneg s (by omega)

theorem calcReducedShift_lt (s m : Int) (hm : 0 < m) :
    calcReducedShift s m < m := by
  rw [calcReducedShift_emod s m hm]
  exact Int.emod_lt_of_pos s hm

/-- C2: the reduced shift is the floor-style modulo `((s % m) + m) % m`,
stated here for an arbitrary positive modulus. -/
theorem calcReducedShift_floorMod (s m : Int) (hm : 0 < m) :
    calcReducedShift s m = ((s % m) + m) % m := by
  rw [calcReducedShift_emod s m hm, Int.add_emod_self,
    Int.emod_emod_of_dvd s (dvd_refl m)]

@[simp] theorem length_cshift (l : List Char) (k : Int) :
    (cshift l k).length = l.length := List.length_rotate l _

theorem mem_cshift {c : Char} (l : List Char) (k : Int) :
    c ∈ cshift l k ↔ c ∈ l := List.mem_rotate

theorem nodup_cshift {l : List Char} (k : Int) (h : l.Nodup) :
    (cshift l k).Nodup := List.nodup_rotate.mpr h

/-! ### Association-list lookup lemmas -/
theorem lookup_append_of_some {l₁ l₂ : List (Char × Char)} {a b : Char}
    (h : l₁.lookup a = some b) : (l₁ ++ l₂).lookup a = some b := by
  induction l₁ with
  | nil => simp at h
  | cons kv l₁ ih =>
    cases kv with
    | mk k v =>
      by_cases hk : a == k
      · simp only [List.lookup_cons, hk] at h
        simp only [List.cons_append, List.lookup_cons, hk]
        exact h
      · simp only [Bool.not_eq_true] at hk
        simp only [List.lookup_cons, hk] at h
        simp only [List.cons_append, List.lookup_cons, hk]
        exact ih h

theorem lookup_append_of_none {l₁ l₂ : List (Char × Char)} {a : Char}
    (h : l₁.lookup a = none) : (l₁ ++ l₂).lookup a = l₂.lookup a := by
  induction l₁ with
  | nil => simp
  | cons kv l₁ ih =>
    cases kv with
    | mk k v =>
      by_cases hk : a == k
      · simp [List.lookup_cons, hk] at h
      · simp only [Bool.not_eq_true] at hk
        simp only [List.lookup_cons, hk] at h
        simp only [List.cons_append, List.lookup_cons, hk]
        exact ih h

theorem lookup_eq_none_of_not_mem_keys {l : List (Char × Char)} {a : Char}
    (h : a ∉ l.map Prod.fst) : l.lookup a = none := by
  induction l with
  | nil => simp
  | cons kv l ih =>
    cases kv with
    | mk k v =>
      simp only [List.map_cons, List.mem_cons] at h
      push_neg at h
      have hk : (a == k) = false := by
        simp only [beq_eq_false_iff_ne, ne_eq]
        exact h.1
      simp only [List.lookup_cons, hk]
      exact ih h.2

theorem lookup_zip_getElem (p q : List Char) (hnd : p.Nodup) :
    ∀ (i : Nat) (hp : i < p.length) (hq : i < q.length),
      (p.zip q).lookup p[i] = some q[i] := by
  induction p generalizing q with
  | nil => intro i hp hq; simp at hp
  | cons a p ih =>
    intro i hp hq
    cases q with
    | nil => simp at hq
    | cons b q =>
      cases i with
      | zero => simp [List.lookup]
      | succ i =>
        have hnd' := List.nodup_cons.mp hnd
        have hip : i < p.length := by simpa using hp
        have hiq : i < q.length := by simpa using hq
        have hmem : p[i] ∈ p := List.getElem_mem hip
        have hne : (p[i] == a) = false := by
          simp only [beq_eq_false_iff_ne, ne_eq]
          intro hEq
          exact hnd'.1 (hEq ▸ hmem)
        simp only [List.zip_cons_cons, List.getElem_cons_succ, List.lookup_cons, hne]
        exact ih q hnd'.2 i hip hiq

/-! ### Per-class lookup facts -/
theorem keys_classEntriesE (alpha : List Char) (r : Int) :
    (classEntriesE alpha r).map Prod.fst = alpha := by
  unfold classEntriesE
  exact List.map_fst_zip _ _ (by simp)

theorem keys_classEntriesD (alpha : List Char) (r : Int) :
    (classEntriesD alpha r).map Prod.fst = cshift alpha r := by
  unfold classEntriesD
  exact List.map_fst_zip _ _ (by simp)

theorem classEntriesE_lookup_none {alpha : List Char} {r : Int} {x : Char}
    (hx : x ∉ alpha) : (classEntriesE alpha r).lookup x = none := by
  apply lookup_eq_none_of_not_mem_keys
  rw [keys_classEntriesE]
  exact hx

theorem classEntriesD_lookup_none {alpha : List Char} {r : Int} {x : Char}
    (hx : x ∉ alpha) : (classEntriesD alpha r).lookup x = none := by
  apply lookup_eq_none_of_not_mem_keys
  rw [keys_classEntriesD]
  exact fun hmem => hx ((mem_cshift alpha r).mp hmem)

/-- Core class-level round trip: for every symbol `x` of a class alphabet,
the enciphering segment maps `x` to some `y` of the same alphabet and the
deciphering segment built from the same reduced shift maps `y` back. -/
theorem classEntries_roundtrip {alpha : List Char} (hnd : alpha.Nodup)
    (r : Int) {x : Char} (hx : x ∈ alpha) :
    ∃ y, (classEntriesE alpha r).lookup x = some y ∧
      (classEntriesD alpha r).lookup y = some x ∧ y ∈ alpha := by
  obtain ⟨i, hi, rfl⟩ := List.mem_iff_getElem.mp hx
  have hir : i < (cshift alpha r).length := by simpa using hi
  refine ⟨(cshift alpha r)[i], ?_, ?_, ?_⟩
  · exact lookup_zip_getElem alpha (cshift alpha r) hnd i hi hir
  · exact lookup_zip_getElem (cshift alpha r) alpha
      (nodup_cshift r hnd) i hir hi
  · exact (mem_cshift alpha r).mp (List.getElem_mem hir)

/-- Looking a member up in the self-zip gives it back (zero-shift case). -/
theorem lookup_zip_self {alpha : List Char} (hnd : alpha.Nodup)
    {x : Char} (hx : x ∈ alpha) : (alpha.zip alpha).lookup x = some x := by
  obtain ⟨i, hi, rfl⟩ := List.mem_iff_getElem.mp hx
  exact lookup_zip_getElem alpha alpha hnd i hi hi

theorem cshift_zero (alpha : List Char) : cshift alpha 0 = alpha := by
  simp [cshift]

/-- Zero shift gives the identity segment on the class. -/
theorem classEntriesE_lookup_zero {alpha : List Char} (hnd : alpha.Nodup)
    {x : Char} (hx : x ∈ alpha) :
    (classEntriesE alpha 0).lookup x = some x := by
  unfold classEntriesE
  rw [cshift_zero]
  exact lookup_zip_self hnd hx

theorem classEntriesD_lookup_zero {alpha : List Char} (hnd : alpha.Nodup)
    {x : Char} (hx : x ∈ alpha) :
    (classEntriesD alpha 0).lookup x = some x := by
  unfold classEntriesD
  rw [cshift_zero]
  exact lookup_zip_self hnd hx

/-! ### Facts about the concrete alphabets -/
theorem nodup_ORIG_UPPER : ORIG_UPPER.Nodup := by decide

theorem nodup_ORIG_LOWER : ORIG_LOWER.Nodup := by decide

theorem nodup_ORIG_NUMBERS : ORIG_NUMBERS.Nodup := by decide

theorem nodup_ORIG_PUNCTS : ORIG_PUNCTS.Nodup := by decide

theorem lower_not_upper : ∀ c ∈ ORIG_LOWER, c ∉ ORIG_UPPER := by decide

theorem numbers_not_upper : ∀ c ∈ ORIG_NUMBERS, c ∉ ORIG_UPPER := by decide

theorem numbers_not_lower : ∀ c ∈ ORIG_NUMBERS, c ∉ ORIG_LOWER := by decide

theorem puncts_not_upper : ∀ c ∈ ORIG_PUNCTS, c ∉ ORIG_UPPER := by decide

theorem puncts_not_lower : ∀ c ∈ ORIG_PUNCTS, c ∉ ORIG_LOWER := by decide

theorem puncts_not_numbers : ∀ c ∈ ORIG_PUNCTS, c ∉ ORIG_NUMBERS := by decide

/-! ### Round trip over the full dictionaries -/
theorem cipherDict_lookup_of_class {alpha : List Char} {eff nsh psh : Int}
    {c y : Char}
    (hcase :
      (alpha = ORIG_UPPER ∧ (classEntriesE ORIG_UPPER eff).lookup c = some y) ∨
      (alpha = ORIG_LOWER ∧ c ∉ ORIG_UPPER ∧
        (classEntriesE ORIG_LOWER eff).lookup c = some y) ∨
      (alpha = ORIG_NUMBERS ∧ c ∉ ORIG_UPPER ∧ c ∉ ORIG_LOWER ∧
        (classEntriesE ORIG_NUMBERS nsh).lookup c = some y) ∨
      (alpha = ORIG_PUNCTS ∧ c ∉ ORIG_UPPER ∧ c ∉ ORIG_LOWER ∧
        c ∉ ORIG_NUMBERS ∧ (classEntriesE ORIG_PUNCTS psh).lookup c = some y)) :
    (cipherDictEntries eff nsh psh).lookup c = some y := by
  unfold cipherDictEntries
  rcases hcase with ⟨_, h⟩ | ⟨_, hU, h⟩ | ⟨_, hU, hL, h⟩ | ⟨_, hU, hL, hN, h⟩
  · exact lookup_append_of_some (lookup_append_of_some (lookup_append_of_some h))
  · rw [List.append_assoc, List.append_assoc,
      lookup_append_of_none (classEntriesE_lookup_none hU)]
    rw [← List.append_assoc]
    exact lookup_append_of_some (lookup_append_of_some h)
  · rw [List.append_assoc, List.append_assoc,
      lookup_append_of_none (classEntriesE_lookup_none hU),
      lookup_append_of_none (classEntriesE_lookup_none hL)]
    exact lookup_append_of_some h
  · rw [List.append_assoc, List.append_assoc,
      lookup_append_of_none (classEntriesE_lookup_none hU),
      lookup_append_of_none (classEntriesE_lookup_none hL),
      lookup_append_of_none (classEntriesE_lookup_none hN)]
    exact h

theorem decipherDict_lookup_of_class {eff nsh psh : Int} {c y : Char}
    (hcase :
      ((classEntriesD ORIG_UPPER eff).lookup c = some y) ∨
      (c ∉ ORIG_UPPER ∧ (classEntriesD ORIG_LOWER eff).lookup c = some y) ∨
      (c ∉ ORIG_UPPER ∧ c ∉ ORIG_LOWER ∧
        (classEntriesD ORIG_NUMBERS nsh).lookup c = some y) ∨
      (c ∉ ORIG_UPPER ∧ c ∉ ORIG_LOWER ∧ c ∉ ORIG_NUMBERS ∧
        (classEntriesD ORIG_PUNCTS psh).lookup c = some y)) :
    (decipherDictEntries eff nsh psh).lookup c = some y := by
  unfold decipherDictEntries ORIG_UPPERCASE ORIG_LOWERCASE ORIG_DIGITS
    ORIG_PUNCTUATION_SYMBOLS
  rcases hcase with h | ⟨hU, h⟩ | ⟨hU, hL, h⟩ | ⟨hU, hL, hN, h⟩
  · exact lookup_append_of_some (lookup_append_of_some (lookup_append_of_some h))
  · rw [List.append_assoc, List.append_assoc,
      lookup_append_of_none (classEntriesD_lookup_none hU)]
    rw [← List.append_assoc]
    exact lookup_append_of_some (lookup_append_of_some h)
  · rw [List.append_assoc, List.append_assoc,
      lookup_append_of_none (classEntriesD_lookup_none hU),
      lookup_append_of_none (classEntriesD_lookup_none hL)]
    exact lookup_append_of_some h
  · rw [List.append_assoc, List.append_assoc,
      lookup_append_of_none (classEntriesD_lookup_none hU),
      lookup_append_of_none (classEntriesD_lookup_none hL),
      lookup_append_of_none (classEntriesD_lookup_none hN)]
    exact h

theorem cipherDict_lookup_none {eff nsh psh : Int} {c : Char}
    (hU : c ∉ ORIG_UPPER) (hL : c ∉ ORIG_LOWER) (hN : c ∉ ORIG_NUMBERS)
    (hP : c ∉ ORIG_PUNCTS) :
    (cipherDictEntries eff nsh psh).lookup c = none := by
  unfold cipherDictEntries
  rw [List.append_assoc, List.append_assoc,
    lookup_append_of_none (classEntriesE_lookup_none hU),
    lookup_append_of_none (classEntriesE_lookup_none hL),
    lookup_append_of_none (classEntriesE_lookup_none hN)]
  exact classEntriesE_lookup_none hP

theorem decipherDict_lookup_none {eff nsh psh : Int} {c : Char}
    (hU : c ∉ ORIG_UPPER) (hL : c ∉ ORIG_LOWER) (hN : c ∉ ORIG_NUMBERS)
    (hP : c ∉ ORIG_PUNCTS) :
    (decipherDictEntries eff nsh psh).lookup c = none := by
  unfold decipherDictEntries ORIG_UPPERCASE ORIG_LOWERCASE ORIG_DIGITS
    ORIG_PUNCTUATION_SYMBOLS
  rw [List.append_assoc, List.append_assoc,
    lookup_append_of_none (classEntriesD_lookup_none hU),
    lookup_append_of_none (classEntriesD_lookup_none hL),
    lookup_append_of_none (classEntriesD_lookup_none hN)]
  exact classEntriesD_lookup_none hP

/-- Byte-level round trip: deciphering with the same per-class shifts
inverts enciphering on every byte (bytes outside the four alphabets pass
through both tables). -/
theorem dict_roundtrip_char (eff nsh psh : Int) (c : Char) :
    transformChar (decipherDictEntries eff nsh psh)
      (transformChar (cipherDictEntries eff nsh psh) c) = c := by
  by_cases hU : c ∈ ORIG_UPPER
  · obtain ⟨y, hy1, hy2, hymem⟩ := classEntries_roundtrip nodup_ORIG_UPPER eff hU
    have h1 : transformChar (cipherDictEntries eff nsh psh) c = y := by
      unfold transformChar
      rw [cipherDict_lookup_of_class (Or.inl ⟨rfl, hy1⟩)]
    have h2 : transformChar (decipherDictEntries eff nsh psh) y = c := by
      unfold transformChar
      rw [decipherDict_lookup_of_class (Or.inl hy2)]
    rw [h1, h2]
  · by_cases hL : c ∈ ORIG_LOWER
    · obtain ⟨y, hy1, hy2, hymem⟩ :=
        classEntries_roundtrip nodup_ORIG_LOWER eff hL
      have hyU : y ∉ ORIG_UPPER := lower_not_upper y hymem
      have h1 : transformChar (cipherDictEntries eff nsh psh) c = y := by
        unfold transformChar
        rw [cipherDict_lookup_of_class (Or.inr (Or.inl ⟨rfl, hU, hy1⟩))]
      have h2 : transformChar (decipherDictEntries eff nsh psh) y = c := by
        unfold transformChar
        rw [decipherDict_lookup_of_class (Or.inr (Or.inl ⟨hyU, hy2⟩))]
      rw [h1, h2]
    · by_cases hN : c ∈ ORIG_NUMBERS
      · obtain ⟨y, hy1, hy2, hymem⟩ :=
          classEntries_roundtrip nodup_ORIG_NUMBERS nsh hN
        have hyU : y ∉ ORIG_UPPER := numbers_not_upper y hymem
        have hyL : y ∉ ORIG_LOWER := numbers_not_lower y hymem
        have h1 : transformChar (cipherDictEntries eff nsh psh) c = y := by
          unfold transformChar
          rw [cipherDict_lookup_of_class
            (Or.inr (Or.inr (Or.inl ⟨rfl, hU, hL, hy1⟩)))]
        have h2 : transformChar (decipherDictEntries eff nsh psh) y = c := by
          unfold transformChar
          rw [decipherDict_lookup_of_class
            (Or.inr (Or.inr (Or.inl ⟨hyU, hyL, hy2⟩)))]
        rw [h1, h2]
      · by_cases hP : c ∈ ORIG_PUNCTS
        · obtain ⟨y, hy1, hy2, hymem⟩ :=
            classEntries_roundtrip nodup_ORIG_PUNCTS psh hP
          have hyU : y ∉ ORIG_UPPER := puncts_not_upper y hymem
          have hyL : y ∉ ORIG_LOWER := puncts_not_lower y hymem
          have hyN : y ∉ ORIG_NUMBERS := puncts_not_numbers y hymem
          have h1 : transformChar (cipherDictEntries eff nsh psh) c = y := by
            unfold transformChar
            rw [cipherDict_lookup_of_class
              (Or.inr (Or.inr (Or.inr ⟨rfl, hU, hL, hN, hy1⟩)))]
          have h2 : transformChar (decipherDictEntries eff nsh psh) y = c := by
            unfold transformChar
            rw [decipherDict_lookup_of_class
              (Or.inr (Or.inr (Or.inr ⟨hyU, hyL, hyN, hy2⟩)))]
          rw [h1, h2]
        · have h1 : transformChar (cipherDictEntries eff nsh psh) c = c := by
            unfold transformChar
            rw [cipherDict_lookup_none hU hL hN hP]
          have h2 : transformChar (decipherDictEntries eff nsh psh) c = c := by
            unfold transformChar
            rw [decipherDict_lookup_none hU hL hN hP]
          rw [h1, h2]

/-- With a zero digit shift, digit bytes map to themselves in both
tables. -/
theorem transform_digit_zero (eff psh : Int) {c : Char}
    (hc : c ∈ ORIG_NUMBERS) :
    transformChar (cipherDictEntries eff 0 psh) c = c ∧
    transformChar (decipherDictEntries eff 0 psh) c = c := by
  have hU : c ∉ ORIG_UPPER := numbers_not_upper c hc
  have hL : c ∉ ORIG_LOWER := numbers_not_lower c hc
  constructor
  · unfold transformChar
    rw [cipherDict_lookup_of_class (Or.inr (Or.inr (Or.inl
      ⟨rfl, hU, hL, classEntriesE_lookup_zero nodup_ORIG_NUMBERS hc⟩)))]
  · unfold transformChar
    rw [decipherDict_lookup_of_class (Or.inr (Or.inr (Or.inl
      ⟨hU, hL, classEntriesD_lookup_zero nodup_ORIG_NUMBERS hc⟩)))]

/-- With a zero punctuation shift, punctuation bytes map to themselves in
both tables. -/
theorem transform_punct_zero (eff nsh : Int) {c : Char}
    (hc : c ∈ ORIG_PUNCTS) :
    transformChar (cipherDictEntries eff nsh 0) c = c ∧
    transformChar (decipherDictEntries eff nsh 0) c = c := by
  have hU : c ∉ ORIG_UPPER := puncts_not_upper c hc
  have hL : c ∉ ORIG_LOWER := puncts_not_lower c hc
  have hN : c ∉ ORIG_NUMBERS := puncts_not_numbers c hc
  constructor
  · unfold transformChar
    rw [cipherDict_lookup_of_class (Or.inr (Or.inr (Or.inr
      ⟨rfl, hU, hL, hN, classEntriesE_lookup_zero nodup_ORIG_PUNCTS hc⟩)))]
  · unfold transformChar
    rw [decipherDict_lookup_of_class (Or.inr (Or.inr (Or.inr
      ⟨hU, hL, hN, classEntriesD_lookup_zero nodup_ORIG_PUNCTS hc⟩)))]

/-- Bytes outside all four alphabets pass through both tables. -/
theorem transform_outside (eff nsh psh : Int) {c : Char}
    (hU : c ∉ ORIG_UPPER) (hL : c ∉ ORIG_LOWER) (hN : c ∉ ORIG_NUMBERS)
    (hP : c ∉ ORIG_PUNCTS) :
    transformChar (cipherDictEntries eff nsh psh) c = c ∧
    transformChar (decipherDictEntries eff nsh psh) c = c := by
  constructor
  · unfold transformChar
    rw [cipherDict_lookup_none hU hL hN hP]
  · unfold transformChar
    rw [decipherDict_lookup_none hU hL hN hP]

/-! ## Claim theorems -/
/-- C1: for every signed shift, every combination of enabled classes, every
byte and every text, the deciphering table is the exact functional inverse
of the enciphering table, so deciphering an enciphered text with the same
shift and classes recovers the original exactly. -/
theorem c1_encipher_decipher_roundtrip (s : Int) (n p : Bool) (c : Char)
    (lines : List (List Char)) :
    transformChar
        (ShiftDecipher.generateCipherDict
          { orig_shift_len := s, flag2 := n, flag3 := p }).cipher_dict
        (transformChar
          (ShiftEncipher.generateCipherDict
            { shift_amount := s, enc_numbers := n, enc_puncts := p }).cipher_dict
          c) = c ∧
    (ShiftDecipher.decipherFileText
        (ShiftDecipher.generateCipherDict
          { orig_shift_len := s, flag2 := n, flag3 := p })
        (ShiftEncipher.encipherFileText
          (ShiftEncipher.generateCipherDict
            { shift_amount := s, enc_numbers := n, enc_puncts := p })
          lines).2).2 = lines := by
  have hchar : ∀ c : Char,
      transformChar
        (ShiftDecipher.generateCipherDict
          { orig_shift_len := s, flag2 := n, flag3 := p }).cipher_dict
        (transformChar
          (ShiftEncipher.generateCipherDict
            { shift_amount := s, enc_numbers := n, enc_puncts := p }).cipher_dict
          c) = c := by
    intro c
    exact dict_roundtrip_char (calcReducedShift s 26)
      (if n then calcReducedShift s 10 else 0)
      (if p then calcReducedShift s 32 else 0) c
  refine ⟨hchar c, ?_⟩
  simp only [ShiftEncipher.encipherFileText, ShiftDecipher.decipherFileText]
  have hflag :
      (ShiftDecipher.generateCipherDict
        { orig_shift_len := s, flag2 := n, flag3 := p }).flag1 = false := rfl
  rw [if_neg (by rw [hflag]; exact Bool.false_ne_true)]
  rw [List.map_map]
  apply List.map_id''
  intro line
  simp only [Function.comp_apply, transformLine, List.map_map]
  apply List.map_id''
  intro c2
  exact hchar c2

/-- C2: for every signed shift and each class modulus in {26, 10, 32}, the
reduced shift of both builders equals the floor-style modulo
`((s % m) + m) % m` and lies in `[0, m)`. -/
theorem c2_reduced_shift_is_floor_modulo (s m : Int)
    (hm : m = 26 ∨ m = 10 ∨ m = 32) :
    calcReducedShift s m = ((s % m) + m) % m ∧
    calculateEffectiveShift s m = ((s % m) + m) % m ∧
    0 ≤ calcReducedShift s m ∧ calcReducedShift s m < m := by
  have hpos : 0 < m := by rcases hm with h | h | h <;> omega
  refine ⟨calcReducedShift_floorMod s m hpos, ?_, calcReducedShift_nonneg s m hpos,
    calcReducedShift_lt s m hpos⟩
  rw [calculateEffectiveShift_eq]
  exact calcReducedShift_floorMod s m hpos

theorem c2_reduced_shift_is_floor_modulo_witness :
    calcReducedShift 30 26 = ((30 % 26) + 26) % 26 ∧
    calculateEffectiveShift 30 26 = ((30 % 26) + 26) % 26 ∧
    0 ≤ calcReducedShift 30 26 ∧ calcReducedShift 30 26 < 26 :=
  c2_reduced_shift_is_floor_modulo 30 26 (Or.inl rfl)

/-- C3: the digit and punctuation rotations are reduced mod 10 and mod 32
directly from the raw shift (not from the mod-26 reduction), and for some
raw shifts the three effective rotations all differ. -/
theorem c3_independent_class_shifts :
    (∀ o : ShiftEncipher.CipherOptions, o.enc_numbers = true →
      (ShiftEncipher.generateCipherDict o).numbers_shift =
        calculateEffectiveShift o.shift_amount 10) ∧
    (∀ o : ShiftEncipher.CipherOptions, o.enc_puncts = true →
      (ShiftEncipher.generateCipherDict o).puncts_shift =
        calculateEffectiveShift o.shift_amount 32) ∧
    (∀ o : ShiftDecipher.DecipherCtrlOpts, o.flag2 = true →
      (ShiftDecipher.generateCipherDict o).digits_shift_len =
        calcReducedShift o.orig_shift_len 10) ∧
    (∀ o : ShiftDecipher.DecipherCtrlOpts, o.flag3 = true →
      (ShiftDecipher.generateCipherDict o).puncts_shift_len =
        calcReducedShift o.orig_shift_len 32) ∧
    (∃ s : Int, calcReducedShift s 26 ≠ calcReducedShift s 10 ∧
      calcReducedShift s 26 ≠ calcReducedShift s 32 ∧
      calcReducedShift s 10 ≠ calcReducedShift s 32) ∧
    (∃ s : Int,
      calcReducedShift s 10 ≠ calcReducedShift (calcReducedShift s 26) 10) := by
  refine ⟨?_, ?_, ?_, ?_, ⟨30, by decide, by decide, by decide⟩,
    ⟨30, by decide⟩⟩
  · intro o h
    simp [ShiftEncipher.generateCipherDict, h]
  · intro o h
    simp [ShiftEncipher.generateCipherDict, h]
  · intro o h
    simp [ShiftDecipher.generateCipherDict, h]
  · intro o h
    simp [ShiftDecipher.generateCipherDict, h]

theorem c3_independent_class_shifts_witness :
    ({ shift_amount := 30, enc_numbers := true } :
        ShiftEncipher.CipherOptions).enc_numbers = true ∧
    (ShiftEncipher.generateCipherDict
        { shift_amount := 30, enc_numbers := true }).numbers_shift =
      calculateEffectiveShift 30 10 :=
  ⟨rfl, c3_independent_class_shifts.1
    { shift_amount := 30, enc_numbers := true } rfl⟩

/-- C4 fails on the code: with the Digit class disabled, the digit bytes
are still keys of the table (as identity entries), here at the default
shift 5 for both the encipher and the decipher builder. -/
theorem c4_counterexample_disabled_class_key_present :
    '0' ∈ ORIG_NUMBERS ∧
    ({ shift_amount := 5 } : ShiftEncipher.CipherOptions).enc_numbers = false ∧
    (ShiftEncipher.generateCipherDict
        ({ shift_amount := 5 } : ShiftEncipher.CipherOptions)).cipher_dict.lookup
      '0' = some '0' ∧
    ({ orig_shift_len := 5 } : ShiftDecipher.DecipherCtrlOpts).flag2 = false ∧
    (ShiftDecipher.generateCipherDict
        ({ orig_shift_len := 5 } : ShiftDecipher.DecipherCtrlOpts)).cipher_dict.lookup
      '0' = some '0' := by
  refine ⟨by decide, rfl, ?_, rfl, ?_⟩ <;> decide

/-- C4 amended: a disabled class still contributes entries, namely identity
entries (its shift keeps the initial value 0), so its bytes map to
themselves inside the table; only bytes outside all four class alphabets
are absent from the table. -/
theorem c4_amended_disabled_class_identity_entries (s : Int) (p n : Bool)
    (b : Char) :
    (b ∈ ORIG_NUMBERS →
      (ShiftEncipher.generateCipherDict
          { shift_amount := s, enc_numbers := false,
            enc_puncts := p }).cipher_dict.lookup b = some b ∧
      (ShiftDecipher.generateCipherDict
          { orig_shift_len := s, flag2 := false,
            flag3 := p }).cipher_dict.lookup b = some b) ∧
    (b ∈ ORIG_PUNCTS →
      (ShiftEncipher.generateCipherDict
          { shift_amount := s, enc_numbers := n,
            enc_puncts := false }).cipher_dict.lookup b = some b ∧
      (ShiftDecipher.generateCipherDict
          { orig_shift_len := s, flag2 := n,
            flag3 := false }).cipher_dict.lookup b = some b) ∧
    (b ∉ ORIG_UPPER → b ∉ ORIG_LOWER → b ∉ ORIG_NUMBERS → b ∉ ORIG_PUNCTS →
      (ShiftEncipher.generateCipherDict
          { shift_amount := s, enc_numbers := n,
            enc_puncts := p }).cipher_dict.lookup b = none ∧
      (ShiftDecipher.generateCipherDict
          { orig_shift_len := s, flag2 := n,
            flag3 := p }).cipher_dict.lookup b = none) := by
  refine ⟨?_, ?_, ?_⟩
  · intro hb
    have hU : b ∉ ORIG_UPPER := numbers_not_upper b hb
    have hL : b ∉ ORIG_LOWER := numbers_not_lower b hb
    constructor
    · exact cipherDict_lookup_of_class (Or.inr (Or.inr (Or.inl
        ⟨rfl, hU, hL, classEntriesE_lookup_zero nodup_ORIG_NUMBERS hb⟩)))
    · exact decipherDict_lookup_of_class (Or.inr (Or.inr (Or.inl
        ⟨hU, hL, classEntriesD_lookup_zero nodup_ORIG_NUMBERS hb⟩)))
  · intro hb
    have hU : b ∉ ORIG_UPPER := puncts_not_upper b hb
    have hL : b ∉ ORIG_LOWER := puncts_not_lower b hb
    have hN : b ∉ ORIG_NUMBERS := puncts_not_numbers b hb
    constructor
    · exact cipherDict_lookup_of_class (Or.inr (Or.inr (Or.inr
        ⟨rfl, hU, hL, hN, classEntriesE_lookup_zero nodup_ORIG_PUNCTS hb⟩)))
    · exact decipherDict_lookup_of_class (Or.inr (Or.inr (Or.inr
        ⟨hU, hL, hN, classEntriesD_lookup_zero nodup_ORIG_PUNCTS hb⟩)))
  · intro hU hL hN hP
    exact ⟨cipherDict_lookup_none hU hL hN hP,
      decipherDict_lookup_none hU hL hN hP⟩

theorem c4_amended_disabled_class_identity_entries_witness :
    '0' ∈ ORIG_NUMBERS ∧
    ((ShiftEncipher.generateCipherDict
        { shift_amount := 5, enc_numbers := false,
          enc_puncts := false }).cipher_dict.lookup '0' = some '0' ∧
      (ShiftDecipher.generateCipherDict
        { orig_shift_len := 5, flag2 := false,
          flag3 := false }).cipher_dict.lookup '0' = some '0') :=
  ⟨by decide,
    (c4_amended_disabled_class_identity_entries 5 false false '0').1 (by decide)⟩

/-- C5: every input byte outside the enabled classes' alphabets is emitted
unchanged by the stream transform — including the symbols of a disabled
class at any nonzero shift — both per byte and positionally inside a
line. -/
theorem c5_pass_through_unchanged (s : Int) (n p : Bool) :
    (∀ c : Char, c ∉ enabledAlphabet n p →
      transformChar
        (ShiftEncipher.generateCipherDict
          { shift_amount := s, enc_numbers := n,
            enc_puncts := p }).cipher_dict c = c ∧
      transformChar
        (ShiftDecipher.generateCipherDict
          { orig_shift_len := s, flag2 := n,
            flag3 := p }).cipher_dict c = c) ∧
    (∀ (ln : List Char) (i : Nat) (h1 : i < ln.length)
      (h2 : i <
        (transformLine
          (ShiftEncipher.generateCipherDict
            { shift_amount := s, enc_numbers := n,
              enc_puncts := p }).cipher_dict ln).length),
      ln[i] ∉ enabledAlphabet n p →
      (transformLine
        (ShiftEncipher.generateCipherDict
          { shift_amount := s, enc_numbers := n,
            enc_puncts := p }).cipher_dict ln)[i] = ln[i]) := by
  have hchar : ∀ c : Char, c ∉ enabledAlphabet n p →
      transformChar
        (ShiftEncipher.generateCipherDict
          { shift_amount := s, enc_numbers := n,
            enc_puncts := p }).cipher_dict c = c ∧
      transformChar
        (ShiftDecipher.generateCipherDict
          { orig_shift_len := s, flag2 := n,
            flag3 := p }).cipher_dict c = c := by
    intro c hc
    simp only [enabledAlphabet, List.mem_append, not_or] at hc
    obtain ⟨⟨⟨hU, hL⟩, hN0⟩, hP0⟩ := hc
    by_cases hN : c ∈ ORIG_NUMBERS
    · cases n with
      | true => exact absurd (by simpa using hN) hN0
      | false =>
        exact ⟨(transform_digit_zero _ _ hN).1, (transform_digit_zero _ _ hN).2⟩
    · by_cases hP : c ∈ ORIG_PUNCTS
      · cases p with
        | true => exact absurd (by simpa using hP) hP0
        | false =>
          exact ⟨(transform_punct_zero _ _ hP).1, (transform_punct_zero _ _ hP).2⟩
      · exact ⟨(transform_outside _ _ _ hU hL hN hP).1,
          (transform_outside _ _ _ hU hL hN hP).2⟩
  refine ⟨hchar, ?_⟩
  intro ln i h1 h2 hmem
  simp only [transformLine, List.getElem_map]
  exact (hchar ln[i] hmem).1

theorem c5_pass_through_unchanged_witness :
    ('0' ∉ enabledAlphabet false false ∧
      transformChar
        (ShiftEncipher.generateCipherDict
          { shift_amount := 5, enc_numbers := false,
            enc_puncts := false }).cipher_dict '0' = '0' ∧
      transformChar
        (ShiftDecipher.generateCipherDict
          { orig_shift_len := 5, flag2 := false,
            flag3 := false }).cipher_dict '0' = '0') :=
  ⟨by decide,
    ((c5_pass_through_unchanged 5 false false).1 '0' (by decide)).1,
    ((c5_pass_through_unchanged 5 false false).1 '0' (by decide)).2⟩

/-- C6 fails on the code: after `--shift-nums` validly enables the Digit
class, the bad combined token `-x` raises the fatal error identifying the
token, but the error path has already reset the previously set flags
(`enc_numbers` back to `false` in `part_000`, `flag2` back to `false` in
the decipher variant). -/
theorem c6_bad_single_char_resets_earlier_flags :
    (ShiftEncipher.parseCommandLine ["prog", "--shift-nums"]).1.enc_numbers =
      true ∧
    (ShiftEncipher.parseCommandLine ["prog", "--shift-nums", "-x"]).2 =
      .error (.invalidSingleChar "-x" 'x') ∧
    (ShiftEncipher.parseCommandLine
      ["prog", "--shift-nums", "-x"]).1.enc_numbers = false ∧
    (ShiftDecipher.parseCommandLine ["prog", "--shift-numbers"]).1.flag2 =
      true ∧
    (ShiftDecipher.parseCommandLine ["prog", "--shift-numbers", "-x"]).2 =
      .error (.invalidArgument "-x") ∧
    (ShiftDecipher.parseCommandLine
      ["prog", "--shift-numbers", "-x"]).1.flag2 = false ∧
    ShiftEncipher.main ["prog", "--shift-nums", "-x"] none = (1, none) ∧
    ShiftDecipher.main ["prog", "--shift-numbers", "-x"] none = (1, none) :=
  ⟨rfl, rfl, rfl, rfl, rfl, rfl, rfl, rfl⟩

/-- C7 fails on the deque-based decipher parser it cites: with `-i` as the
final token, that parser pops the option and then calls `front()` on the
now-empty deque, which is undefined behaviour in C++ — modelled by the
distinct `frontEmpty` outcome — and not a fatal error of the
index-out-of-range class. -/
theorem c7_counterexample_deque_front_on_empty :
    (ShiftDecipher.parseCommandLine ["prog", "-i"]).2 =
      .error .frontEmpty ∧
    (ShiftDecipher.parseLoop ["-i"]
      ({} : ShiftDecipher.DecipherCtrlOpts)).2 = .error .frontEmpty ∧
    CipherErr.frontEmpty ≠ CipherErr.outOfRange :=
  ⟨rfl, rfl, by decide⟩

/-- C7 amended: in the `.at()`-indexed parsers (`part_000` and the second
decipher variant, which shares its shape), a value-taking option as the
final token throws the index-out-of-range error whatever the accumulated
state is, and the run exits with code 1 without processing any file; in
the deque-based first decipher variant the same inputs instead reach
`front()` on an empty deque — undefined behaviour, modelled by the
distinct `frontEmpty` outcome, with no index-out-of-range failure
guaranteed. -/
theorem c7_amended_missing_value_behaviour :
    (∀ o : ShiftEncipher.CipherOptions,
      ShiftEncipher.parseLoop ["-i"] o = (o, .error .outOfRange) ∧
      ShiftEncipher.parseLoop ["--ifile"] o = (o, .error .outOfRange) ∧
      ShiftEncipher.parseLoop ["-o"] o = (o, .error .outOfRange) ∧
      ShiftEncipher.parseLoop ["--ofile"] o = (o, .error .outOfRange) ∧
      ShiftEncipher.parseLoop ["-s"] o = (o, .error .outOfRange) ∧
      ShiftEncipher.parseLoop ["--shift-amount"] o = (o, .error .outOfRange)) ∧
    (∀ (prog : String) (input : Option (List (List Char))),
      ShiftEncipher.main [prog, "-i"] input = (1, none) ∧
      ShiftEncipher.main [prog, "-o"] input = (1, none) ∧
      ShiftEncipher.main [prog, "-s"] input = (1, none) ∧
      ShiftEncipher.main [prog, "-i", "file.txt", "-s"] input = (1, none)) ∧
    (∀ o : ShiftDecipher.DecipherCtrlOpts,
      ShiftDecipher.parseLoop ["-i"] o = (o, .error .frontEmpty) ∧
      ShiftDecipher.parseLoop ["--ifile"] o = (o, .error .frontEmpty) ∧
      ShiftDecipher.parseLoop ["-o"] o = (o, .error .frontEmpty) ∧
      ShiftDecipher.parseLoop ["--ofile"] o = (o, .error .frontEmpty) ∧
      ShiftDecipher.parseLoop ["-s"] o = (o, .error .frontEmpty) ∧
      ShiftDecipher.parseLoop ["--shift-amount"] o =
        (o, .error .frontEmpty)) :=
  ⟨fun _ => ⟨rfl, rfl, rfl, rfl, rfl, rfl⟩,
    fun _ _ => ⟨rfl, rfl, rfl, rfl⟩,
    fun _ => ⟨rfl, rfl, rfl, rfl, rfl, rfl⟩⟩

/-- C8: the per-class table entries are periodic in the raw shift with the
class's own alphabet size as period, for both the enciphering and the
deciphering builder. -/
theorem c8_per_class_periodicity (k n : Int) :
    classEntriesE ORIG_UPPER (calculateEffectiveShift (k + n * 26) 26) =
      classEntriesE ORIG_UPPER (calculateEffectiveShift k 26) ∧
    classEntriesE ORIG_LOWER (calculateEffectiveShift (k + n * 26) 26) =
      classEntriesE ORIG_LOWER (calculateEffectiveShift k 26) ∧
    classEntriesE ORIG_NUMBERS (calculateEffectiveShift (k + n * 10) 10) =
      classEntriesE ORIG_NUMBERS (calculateEffectiveShift k 10) ∧
    classEntriesE ORIG_PUNCTS (calculateEffectiveShift (k + n * 32) 32) =
      classEntriesE ORIG_PUNCTS (calculateEffectiveShift k 32) ∧
    classEntriesD ORIG_UPPERCASE (calcReducedShift (k + n * 26) 26) =
      classEntriesD ORIG_UPPERCASE (calcReducedShift k 26) ∧
    classEntriesD ORIG_LOWERCASE (calcReducedShift (k + n * 26) 26) =
      classEntriesD ORIG_LOWERCASE (calcReducedShift k 26) ∧
    classEntriesD ORIG_DIGITS (calcReducedShift (k + n * 10) 10) =
      classEntriesD ORIG_DIGITS (calcReducedShift k 10) ∧
    classEntriesD ORIG_PUNCTUATION_SYMBOLS (calcReducedShift (k + n * 32) 32) =
      classEntriesD ORIG_PUNCTUATION_SYMBOLS (calcReducedShift k 32) := by
  have hred : ∀ m : Int, 0 < m →
      calcReducedShift (k + n * m) m = calcReducedShift k m := by
    intro m hm
    rw [calcReducedShift_emod _ m hm, calcReducedShift_emod k m hm,
      Int.add_mul_emod_self]
  have h26 := hred 26 (by norm_num)
  have h10 := hred 10 (by norm_num)
  have h32 := hred 32 (by norm_num)
  simp only [calculateEffectiveShift_eq, h26, h10, h32, and_self]

/-- The decipher single-character scan processes an appended list in two
stages. -/
theorem scanChars_append (xs ys : List Char)
    (o : ShiftDecipher.DecipherCtrlOpts) (r : DECIPHER_PROG_CODES) :
    ShiftDecipher.scanChars (xs ++ ys) o r =
      ShiftDecipher.scanChars ys (ShiftDecipher.scanChars xs o r).1
        (ShiftDecipher.scanChars xs o r).2 := by
  induction xs generalizing o r with
  | nil => simp [ShiftDecipher.scanChars]
  | cons c xs ih =>
    simp only [List.cons_append, ShiftDecipher.scanChars]
    split_ifs <;> exact ih _ _

/-- Once the decipher scan has recorded an error, no character other than
`h` can change the recorded result. -/
theorem scanChars_error_stable (ys : List Char)
    (o : ShiftDecipher.DecipherCtrlOpts) (hh : 'h' ∉ ys) :
    (ShiftDecipher.scanChars ys o .CMDLN_USER_ERROR).2 =
      .CMDLN_USER_ERROR := by
  induction ys generalizing o with
  | nil => rfl
  | cons c ys ih =>
    simp only [List.mem_cons, not_or] at hh
    simp only [ShiftDecipher.scanChars]
    split_ifs with hA hN hP hL hH
    · exact ih _ hh.2
    · exact ih _ hh.2
    · exact ih _ hh.2
    · exact ih _ hh.2
    · exact absurd hH.symm hh.1
    · exact ih _ hh.2

/-- Unrecognized character step of the decipher scan, for an arbitrary
character known not to be one of the five flags. -/
theorem scanChars_invalid_step (c : Char) (cs : List Char)
    (o : ShiftDecipher.DecipherCtrlOpts) (r : DECIPHER_PROG_CODES)
    (hc5 : c ≠ 'a' ∧ c ≠ 'n' ∧ c ≠ 'p' ∧ c ≠ 'l' ∧ c ≠ 'h') :
    ShiftDecipher.scanChars (c :: cs) o r =
      ShiftDecipher.scanChars cs
        { o with
            flag2 := false,
            flag3 := false,
            flag7 := false,
            flag0 := false }
        .CMDLN_USER_ERROR := by
  simp only [ShiftDecipher.scanChars, if_neg hc5.1, if_neg hc5.2.1,
    if_neg hc5.2.2.1, if_neg hc5.2.2.2.1, if_neg hc5.2.2.2.2]

/-- In the `part_000` combined-token loop, the first unrecognized
character throws while leaving an already-triggered help print
observable. -/
theorem scanSingles_invalid_after_valid (tok : String) (c : Char)
    (hc : c ∉ (['a', 'n', 'p', 'l', 'h'] : List Char)) :
    ∀ (pre : List Char),
      (∀ x ∈ pre, x ∈ (['a', 'n', 'p', 'l', 'h'] : List Char)) →
      ∀ (post : List Char) (o : ShiftEncipher.CipherOptions) (r : Int),
        o.help_printed = true →
        (ShiftEncipher.scanSingles tok (pre ++ c :: post) o r).2 =
          .error (.invalidSingleChar tok c) ∧
        (ShiftEncipher.scanSingles tok (pre ++ c :: post) o r).1.help_printed =
          true := by
  have hc5 : c ≠ 'a' ∧ c ≠ 'n' ∧ c ≠ 'p' ∧ c ≠ 'l' ∧ c ≠ 'h' := by
    simp only [List.mem_cons, not_or] at hc
    exact ⟨hc.1, hc.2.1, hc.2.2.1, hc.2.2.2.1, hc.2.2.2.2.1⟩
  intro pre
  induction pre with
  | nil =>
    intro _ post o r ho
    have hred : ShiftEncipher.scanSingles tok (([] : List Char) ++ c :: post)
          o r =
        ({ o with
            display_log_info := false,
            enc_numbers := false,
            enc_puncts := false },
          .error (.invalidSingleChar tok c)) := by
      simp only [List.nil_append, ShiftEncipher.scanSingles, if_neg hc5.1,
        if_neg hc5.2.1, if_neg hc5.2.2.1, if_neg hc5.2.2.2.1,
        if_neg hc5.2.2.2.2]
    rw [hred]
    exact ⟨rfl, ho⟩
  | cons x pre ih =>
    intro hval post o r ho
    have hx : x ∈ (['a', 'n', 'p', 'l', 'h'] : List Char) :=
      hval x (List.mem_cons_self x pre)
    have hval' : ∀ y ∈ pre, y ∈ (['a', 'n', 'p', 'l', 'h'] : List Char) :=
      fun y hy => hval y (List.mem_cons_of_mem x hy)
    simp only [List.mem_cons] at hx
    rcases hx with rfl | rfl | rfl | rfl | rfl | hx
    · exact ih hval' post _ r ho
    · exact ih hval' post _ r ho
    · exact ih hval' post _ r ho
    · exact ih hval' post _ r ho
    · exact ih hval' post _ 1 rfl
    · exact absurd hx (by simp)

/-- C9 fails on the deque/bitset decipher variant: in the combined token
`-hxh` the character `x` after the `h` is unrecognized, yet the scan keeps
going, the final `h` overwrites the recorded error, and the run ends as a
help-requested success with exit code 0 instead of a fatal parse error. -/
theorem c9_counterexample_trailing_h_overrides_error :
    (ShiftDecipher.parseSingleCharOptions "-hxh" {}).2 = .CMDLN_HELP_REQ ∧
    (ShiftDecipher.parseCommandLine ["prog", "-hxh"]).2 =
      .ok .CMDLN_HELP_REQ ∧
    ShiftDecipher.main ["prog", "-hxh"] none = (0, none) :=
  ⟨rfl, rfl, rfl⟩

/-- C9 amended: in the deque/bitset variant the run ends with a fatal
error provided no later `h` follows the offending character inside the
token; in the `part_000`-style variant the loop throws at the first
unrecognized character even though the help text was already printed; in
both, the concrete run on `-hx` exits 1. -/
theorem c9_amended_bad_char_after_h (o : ShiftDecipher.DecipherCtrlOpts)
    (r : DECIPHER_PROG_CODES) (tok : String)
    (oe : ShiftEncipher.CipherOptions) (re : Int)
    (pre post preV postV : List Char) (c cV : Char)
    (hc : c ∉ (['a', 'n', 'p', 'l', 'h'] : List Char)) (hh : 'h' ∉ post)
    (hval : ∀ x ∈ preV, x ∈ (['a', 'n', 'p', 'l', 'h'] : List Char))
    (hcV : cV ∉ (['a', 'n', 'p', 'l', 'h'] : List Char)) :
    (ShiftDecipher.scanChars (pre ++ c :: post) o r).2 = .CMDLN_USER_ERROR ∧
    (ShiftEncipher.scanSingles tok ('h' :: (preV ++ cV :: postV)) oe re).2 =
      .error (.invalidSingleChar tok cV) ∧
    (ShiftEncipher.scanSingles tok
      ('h' :: (preV ++ cV :: postV)) oe re).1.help_printed = true ∧
    ShiftEncipher.main ["prog", "-hx"] none = (1, none) ∧
    ShiftDecipher.main ["prog", "-hx"] none = (1, none) := by
  have hc5 : c ≠ 'a' ∧ c ≠ 'n' ∧ c ≠ 'p' ∧ c ≠ 'l' ∧ c ≠ 'h' := by
    simp only [List.mem_cons, not_or] at hc
    exact ⟨hc.1, hc.2.1, hc.2.2.1, hc.2.2.2.1, hc.2.2.2.2.1⟩
  have hmain := scanSingles_invalid_after_valid tok cV hcV preV hval postV
    { oe with help_printed := true } 1 rfl
  refine ⟨?_, hmain.1, hmain.2, rfl, rfl⟩
  rw [scanChars_append, scanChars_invalid_step c post _ _ hc5]
  exact scanChars_error_stable post _ hh

theorem c9_amended_bad_char_after_h_witness :
    ('x' ∉ (['a', 'n', 'p', 'l', 'h'] : List Char)) ∧
    ('h' ∉ ([] : List Char)) ∧
    (ShiftDecipher.scanChars (([] : List Char) ++ 'x' :: [])
        {} .CMDLN_OK).2 = .CMDLN_USER_ERROR ∧
    (ShiftEncipher.scanSingles "-hx" ('h' :: (([] : List Char) ++ 'x' :: []))
        {} 0).2 = .error (.invalidSingleChar "-hx" 'x') :=
  ⟨by decide, by decide,
    (c9_amended_bad_char_after_h {} .CMDLN_OK "-hx" {} 0 [] [] [] [] 'x' 'x'
      (by decide) (by decide) (by intro x hx; exact absurd hx (by simp))
      (by decide)).1,
    (c9_amended_bad_char_after_h {} .CMDLN_OK "-hx" {} 0 [] [] [] [] 'x' 'x'
      (by decide) (by decide) (by intro x hx; exact absurd hx (by simp))
      (by decide)).2.1⟩

/-- C10: repeating a value-taking option is accepted silently and the last
occurrence wins, in both the `part_000` parser and the deque-based
decipher parser. -/
theorem c10_repeated_value_options_last_wins
    (p a1 b1 a2 b2 s1 s2 : String) (n1 n2 : Int)
    (h1 : stoi s1 = .ok n1) (h2 : stoi s2 = .ok n2) :
    ((ShiftEncipher.parseCommandLine
        [p, "-i", a1, "-o", b1, "-s", s1, "-i", a2, "-o", b2, "-s", s2]).2 =
       .ok 0 ∧
     (ShiftEncipher.parseCommandLine
        [p, "-i", a1, "-o", b1, "-s", s1, "-i", a2, "-o", b2,
          "-s", s2]).1.infilename = a2 ∧
     (ShiftEncipher.parseCommandLine
        [p, "-i", a1, "-o", b1, "-s", s1, "-i", a2, "-o", b2,
          "-s", s2]).1.outfilename = b2 ∧
     (ShiftEncipher.parseCommandLine
        [p, "-i", a1, "-o", b1, "-s", s1, "-i", a2, "-o", b2,
          "-s", s2]).1.shift_amount = n2 ∧
     (ShiftEncipher.parseCommandLine
        [p, "-i", a1, "-o", b1, "-s", s1, "-i", a2, "-o", b2,
          "-s", s2]).1.use_default_oname = false) ∧
    ((ShiftDecipher.parseCommandLine
        [p, "-i", a1, "-o", b1, "-s", s1, "-i", a2, "-o", b2, "-s", s2]).2 =
       .ok .CMDLN_OK ∧
     (ShiftDecipher.parseCommandLine
        [p, "-i", a1, "-o", b1, "-s", s1, "-i", a2, "-o", b2,
          "-s", s2]).1.infilename = a2 ∧
     (ShiftDecipher.parseCommandLine
        [p, "-i", a1, "-o", b1, "-s", s1, "-i", a2, "-o", b2,
          "-s", s2]).1.outfilename = b2 ∧
     (ShiftDecipher.parseCommandLine
        [p, "-i", a1, "-o", b1, "-s", s1, "-i", a2, "-o", b2,
          "-s", s2]).1.orig_shift_len = n2 ∧
     (ShiftDecipher.parseCommandLine
        [p, "-i", a1, "-o", b1, "-s", s1, "-i", a2, "-o", b2,
          "-s", s2]).1.flag1 = false) := by
  have hE : ShiftEncipher.parseCommandLine
      [p, "-i", a1, "-o", b1, "-s", s1, "-i", a2, "-o", b2, "-s", s2] =
      ShiftEncipher.parseLoop ["-s", s2]
        { program_name := p,
          prog_name_stripped := p,
          infilename := a2,
          outfilename := b2,
          use_default_oname := false,
          shift_amount := n1 } := by
    show (match stoi s1 with
      | .ok z => ShiftEncipher.parseLoop ["-i", a2, "-o", b2, "-s", s2]
          { program_name := p,
            prog_name_stripped := p,
            infilename := a1,
            outfilename := b1,
            use_default_oname := false,
            shift_amount := z }
      | .error e =>
          ({ program_name := p,
             prog_name_stripped := p,
             infilename := a1,
             outfilename := b1,
             use_default_oname := false }, .error e)) = _
    rw [h1]
    rfl
  have hE2 : ShiftEncipher.parseLoop ["-s", s2]
      { program_name := p,
        prog_name_stripped := p,
        infilename := a2,
        outfilename := b2,
        use_default_oname := false,
        shift_amount := n1 } =
      ({ program_name := p,
         prog_name_stripped := p,
         infilename := a2,
         outfilename := b2,
         use_default_oname := false,
         shift_amount := n2 }, .ok 0) := by
    show (match stoi s2 with
      | .ok z => ShiftEncipher.parseLoop ([] : List String)
          { program_name := p,
            prog_name_stripped := p,
            infilename := a2,
            outfilename := b2,
            use_default_oname := false,
            shift_amount := z }
      | .error e =>
          ({ program_name := p,
             prog_name_stripped := p,
             infilename := a2,
             outfilename := b2,
             use_default_oname := false,
             shift_amount := n1 }, .error e)) = _
    rw [h2]
    rfl
  have hD : ShiftDecipher.parseCommandLine
      [p, "-i", a1, "-o", b1, "-s", s1, "-i", a2, "-o", b2, "-s", s2] =
      ShiftDecipher.parseLoop ["-s", s2]
        { program_name := p,
          prog_name_stripped := p,
          infilename := a2,
          outfilename := b2,
          flag1 := false,
          orig_shift_len := n1 } := by
    show (match stoi s1 with
      | .ok z => ShiftDecipher.parseLoop ["-i", a2, "-o", b2, "-s", s2]
          { program_name := p,
            prog_name_stripped := p,
            infilename := a1,
            outfilename := b1,
            flag1 := false,
            orig_shift_len := z }
      | .error e =>
          ({ program_name := p,
             prog_name_stripped := p,
             infilename := a1,
             outfilename := b1,
             flag1 := false }, .error e)) = _
    rw [h1]
    rfl
  have hD2 : ShiftDecipher.parseLoop ["-s", s2]
      { program_name := p,
        prog_name_stripped := p,
        infilename := a2,
        outfilename := b2,
        flag1 := false,
        orig_shift_len := n1 } =
      ({ program_name := p,
         prog_name_stripped := p,
         infilename := a2,
         outfilename := b2,
         flag1 := false,
         orig_shift_len := n2 }, .ok .CMDLN_OK) := by
    show (match stoi s2 with
      | .ok z => ShiftDecipher.parseLoop ([] : List String)
          { program_name := p,
            prog_name_stripped := p,
            infilename := a2,
            outfilename := b2,
            flag1 := false,
            orig_shift_len := z }
      | .error e =>
          ({ program_name := p,
             prog_name_stripped := p,
             infilename := a2,
             outfilename := b2,
             flag1 := false,
             orig_shift_len := n1 }, .error e)) = _
    rw [h2]
    rfl
  rw [hE, hE2, hD, hD2]
  exact ⟨⟨rfl, rfl, rfl, rfl, rfl⟩, ⟨rfl, rfl, rfl, rfl, rfl⟩⟩

theorem c10_repeated_value_options_last_wins_witness :
    (ShiftEncipher.parseCommandLine
      ["p", "-i", "a", "-o", "b", "-s", "7", "-i", "A", "-o", "B",
        "-s", "-3"]).1.shift_amount = -3 ∧
    (ShiftDecipher.parseCommandLine
      ["p", "-i", "a", "-o", "b", "-s", "7", "-i", "A", "-o", "B",
        "-s", "-3"]).1.orig_shift_len = -3 :=
  ⟨(c10_repeated_value_options_last_wins "p" "a" "b" "A" "B" "7" "-3" 7 (-3)
      (by rfl) (by rfl)).1.2.2.2.1,
    (c10_repeated_value_options_last_wins "p" "a" "b" "A" "B" "7" "-3" 7 (-3)
      (by rfl) (by rfl)).2.2.2.2.1⟩
